import Mathlib

/-!
Verification of the request-routing core of the gateway inference extension:
the prefix-cache scorer (block-chained hashing, longest-prefix matching,
per-pod scoring, pre-request state handling) and the Director request
lifecycle (model extraction, request-data extraction, admission control,
candidate selection). Go code is shallowly embedded: byte strings are
lists of naturals, Go maps are association lists or functions with the
zero-value default, the xxhash64 function is an abstract parameter, and
fallible or panicking code returns Option or Except.
-/

namespace Gateway

/-- Encoding of one character as UTF-8 bytes, natural numbers in [0, 256). -/
def utf8Bytes (c : Char) : List Nat :=
  let n := c.toNat
  if n < 0x80 then [n]
  else if n < 0x800 then [0xC0 + n / 0x40, 0x80 + n % 0x40]
  else if n < 0x10000 then
    [0xE0 + n / 0x1000, 0x80 + n / 0x40 % 0x40, 0x80 + n % 0x40]
  else
    [0xF0 + n / 0x40000, 0x80 + n / 0x1000 % 0x40, 0x80 + n / 0x40 % 0x40,
     0x80 + n % 0x40]

/-- Bytes of a Go string in UTF-8, as natural numbers in [0, 256). -/
def strBytes (s : String) : List Nat :=
  s.data.foldr (fun c acc => utf8Bytes c ++ acc) []

/-- Embedding of toBytes: binary.LittleEndian.PutUint64 into an 8-byte buffer,
byte j is bits [8j, 8j+8) of the hash value. -/
def toBytes (i : Nat) : List Nat :=
  [i % 256, i / 2 ^ 8 % 256, i / 2 ^ 16 % 256, i / 2 ^ 24 % 256,
   i / 2 ^ 32 % 256, i / 2 ^ 40 % 256, i / 2 ^ 48 % 256, i / 2 ^ 56 % 256]

/-- JSON values as decoded from a request body (the Go type any after
encoding/json decoding). -/
inductive Json where
  | null : Json
  | bool (b : Bool) : Json
  | num (q : ℚ) : Json
  | str (s : String) : Json
  | arr (elems : List Json) : Json
  | obj (fields : List (String × Json)) : Json

/-- Lookup in a Go map modelled as an association list. -/
def lookupStr {α : Type} : List (String × α) → String → Option α
  | [], _ => none
  | (k', v) :: rest, k => if k' = k then some v else lookupStr rest k

/-- Assignment into a Go map modelled as an association list: replace the
binding when the key is present, append it otherwise. -/
def insertStr {α : Type} : List (String × α) → String → α → List (String × α)
  | [], k, v => [(k, v)]
  | (k', v') :: rest, k, v =>
    if k' = k then (k, v) :: rest else (k', v') :: insertStr rest k v

/-- Message of a chat-completions request: role and content strings. -/
structure Message where
  role : String
  content : String
  deriving DecidableEq

/-- CompletionsRequest: the typed completions body, field prompt. -/
structure CompletionsRequest where
  prompt : String
  deriving DecidableEq

/-- ChatCompletionsRequest: the typed chat-completions body. Optional
fields keep their Go zero values when absent. -/
structure ChatCompletionsRequest where
  messages : List Message
  tools : List Json
  documents : List Json
  chatTemplate : String
  returnAssistantTokensMask : Bool
  continueFinalMessage : Bool
  addGenerationPrompt : Bool
  chatTemplateKWArgs : List (String × Json)

/-- LLMRequestData: tagged union of the two request shapes, a pair of
pointers in Go. -/
structure LLMRequestData where
  completions : Option CompletionsRequest
  chatCompletions : Option ChatCompletionsRequest

/-- LLMRequest as assembled by the Director. -/
structure LLMRequest where
  requestId : String
  targetModel : String
  data : LLMRequestData
  headers : List (String × String)

/-- Modelled from the spec: JSON string escaping used by json.Marshal for
the canonical serialization of chat messages. Only the quote and backslash
characters need escaping for the inputs considered here; the exact
rendering is irrelevant to the hashing claims, which quantify over the
resulting byte string. -/
def escapeJson (s : String) : String :=
  String.mk (s.data.foldr
    (fun c acc =>
      if c = '"' then '\\' :: '"' :: acc
      else if c = '\\' then '\\' :: '\\' :: acc
      else c :: acc) [])

/-- Modelled from the spec: json.Marshal of a single chat message, an
object with the role and content fields in declaration order. -/
def serializeMessage (m : Message) : String :=
  "\x7b\"role\":\"" ++ escapeJson m.role ++ "\",\"content\":\""
    ++ escapeJson m.content ++ "\"\x7d"

/-- Modelled from the spec: json.Marshal of the messages sequence only
(not the envelope), as the user-input bytes of a chat-completions
request. -/
def serializeMessages (msgs : List Message) : List Nat :=
  strBytes ("[" ++ String.intercalate "," (msgs.map serializeMessage) ++ "]")

/-- Embedding of getUserInputBytes: prompt bytes for completions, the
serialized messages for chat-completions. The none result stands for a Go
nil dereference path that hashPrompt never reaches (its nil checks come
first). -/
def getUserInputBytes (data : LLMRequestData) : Option (List Nat) :=
  match data.completions with
  | some c => some (strBytes c.prompt)
  | none =>
    match data.chatCompletions with
    | some cc => some (serializeMessages cc.messages)
    | none => none

/-- Fuel-indexed embedding of the block loop of hashPrompt:
for i := 0; i+cacheBlockSize <= len(userInput); i += cacheBlockSize,
hashing each block concatenated with the little-endian bytes of the
previous hash. The none result means the fuel was exhausted while the
loop guard still held, so the Go loop would still be running. -/
def blockLoopF (xxh : List Nat → Nat) (input : List Nat) (bs : Nat) :
    Nat → Nat → Nat → List Nat → Option (List Nat)
  | 0, i, _, acc => if i + bs ≤ input.length then none else some acc
  | fuel + 1, i, prev, acc =>
    if i + bs ≤ input.length then
      let h := xxh ((input.drop i).take bs ++ toBytes prev)
      blockLoopF xxh input bs fuel (i + bs) h (acc ++ [h])
    else some acc

/-- Closed form of the block loop for a positive block size: emit n
chained hashes starting at byte offset i with previous hash prev. -/
def chainN (xxh : List Nat → Nat) (input : List Nat) (bs : Nat) :
    Nat → Nat → Nat → List Nat
  | 0, _, _ => []
  | n + 1, i, prev =>
    let h := xxh ((input.drop i).take bs ++ toBytes prev)
    h :: chainN xxh input bs n (i + bs) h

/-- Recurrence of the specification: h 0 hashes the target model, and
h (i+1) hashes bytes [i*bs, (i+1)*bs) of the user input concatenated with
the little-endian encoding of h i. -/
def specChainH (xxh : List Nat → Nat) (targetModel : String)
    (input : List Nat) (bs : Nat) : Nat → Nat
  | 0 => xxh (strBytes targetModel)
  | n + 1 =>
    xxh ((input.drop (n * bs)).take bs
      ++ toBytes (specChainH xxh targetModel input bs n))

/-- Embedding of the body of hashPrompt after the user-input bytes are
obtained: the short-input early return, the truncation to
maxPrefixBlocks*cacheBlockSize bytes, and the fuel-indexed block loop
seeded with the hash of the target model. -/
def hashUserInput (xxh : List Nat → Nat) (targetModel : String)
    (userInput : List Nat) (cacheBlockSize maxPrefixBlocks : Nat) :
    Option (List Nat) :=
  if userInput.length < cacheBlockSize then some []
  else
    let input :=
      if cacheBlockSize * maxPrefixBlocks < userInput.length then
        userInput.take (maxPrefixBlocks * cacheBlockSize)
      else userInput
    blockLoopF xxh input cacheBlockSize (input.length + 1) 0
      (xxh (strBytes targetModel)) []

/-- Closed form of hashUserInput, total for every block size; it agrees
with the fuel-indexed embedding whenever the block size is positive. -/
def hashChain (xxh : List Nat → Nat) (targetModel : String)
    (userInput : List Nat) (cacheBlockSize maxPrefixBlocks : Nat) :
    List Nat :=
  if userInput.length < cacheBlockSize then []
  else
    let input :=
      if cacheBlockSize * maxPrefixBlocks < userInput.length then
        userInput.take (maxPrefixBlocks * cacheBlockSize)
      else userInput
    chainN xxh input cacheBlockSize (input.length / cacheBlockSize) 0
      (xxh (strBytes targetModel))

/-- Embedding of hashPrompt over a whole request, including the nil
checks and the error path of getUserInputBytes (both return nil). -/
def hashPrompt (xxh : List Nat → Nat) (request : Option LLMRequest)
    (cacheBlockSize maxPrefixBlocks : Nat) : List Nat :=
  match request with
  | none => []
  | some req =>
    match getUserInputBytes req.data with
    | none => []
    | some userInput =>
      hashChain xxh req.targetModel userInput cacheBlockSize maxPrefixBlocks

/-- NamespacedName of a Kubernetes object, the identity of a replica. -/
structure NamespacedName where
  nspace : String
  name : String
  deriving DecidableEq

/-- ServerID is a NamespacedName in the source. -/
abbrev ServerID := NamespacedName

/-- Pod snapshot as seen by the scorer and the Director: identity and
address. -/
structure Pod where
  namespacedName : NamespacedName
  address : String
  deriving DecidableEq

/-- ServerID of a pod, as built by ServerID(pod.GetPod().NamespacedName). -/
def serverID (pod : Pod) : ServerID := pod.namespacedName

/-- SchedulingContextState of the prefix plugin: the block hashes of the
request and the per-server match length. The Go map is modelled as a
function with the zero default. -/
structure SchedulingContextState where
  prefixHashes : List Nat
  prefixCacheServers : ServerID → Nat

/-- Helper loop of matchLongestPrefix: walk the hashes in order, stop at
the first hash whose cached-server set is empty, and increment the count
of every server of each non-empty set. -/
def mlpAux (get : Nat → Finset ServerID) :
    List Nat → (ServerID → Nat) → (ServerID → Nat)
  | [], res => res
  | hash :: rest, res =>
    let cachedServers := get hash
    if cachedServers = ∅ then res
    else
      mlpAux get rest
        (fun server =>
          if server ∈ cachedServers then res server + 1 else res server)

/-- Embedding of matchLongestPrefix over an abstract indexer view
(the Get method of the Indexer interface). -/
def matchLongestPrefix (get : Nat → Finset ServerID) (hashes : List Nat) :
    ServerID → Nat :=
  mlpAux get hashes (fun _ => 0)

/-- Length of the longest contiguous prefix of the hash sequence whose
every block has the server in its cached-server set: the quantity that
matchLongestPrefix is documented to compute for each server. -/
def longestContiguousMatch (get : Nat → Finset ServerID) (hashes : List Nat)
    (server : ServerID) : Nat :=
  (hashes.takeWhile (fun h => decide (server ∈ get h))).length

/-- Data held by the plugin state store; the other constructor stands for
state written by a different plugin, which the typed read rejects. -/
inductive StateData where
  | scorerState (s : SchedulingContextState) : StateData
  | other : StateData

/-- PluginState: request-id keyed map of state-key keyed plugin data. -/
def Store := List (String × List (String × StateData))

/-- PrefixCachePluginType, the state key used by the prefix scorer. -/
def prefixCachePluginType : String := "prefix-cache-scorer"

/-- Modelled from the spec: ReadPluginStateKey, the typed read of the
plugin state store, failing when the request id is absent or the stored
data has the wrong type. -/
def storeRead (store : Store) (requestId key : String) :
    Except Unit SchedulingContextState :=
  match lookupStr store requestId with
  | none => .error ()
  | some perRequest =>
    match lookupStr perRequest key with
    | some (.scorerState s) => .ok s
    | _ => .error ()

/-- Modelled from the spec: PluginState.Write for one request id and
state key. -/
def storeWrite (store : Store) (requestId key : String) (v : StateData) :
    Store :=
  match lookupStr store requestId with
  | none => insertStr store requestId [(key, v)]
  | some perRequest => insertStr store requestId (insertStr perRequest key v)

/-- Modelled from the spec: PluginState.Delete removes every entry of the
request id. -/
def storeDelete (store : Store) (requestId : String) : Store :=
  store.filter (fun kv => kv.1 ≠ requestId)

/-- Result of one profile of a scheduling cycle. -/
structure ProfileRunResult where
  targetPods : List Pod

/-- SchedulingResult: named profile results and the primary profile name. -/
structure SchedulingResult where
  primaryProfileName : String
  profileResults : List (String × ProfileRunResult)

/-- Embedding of Plugin.Score: hash the prompt, compute the per-server
longest-prefix counts, write the scheduling state into the plugin state
store, and score every candidate pod as matchLen / total (0 when there
are no hashes). The float64 scores are modelled as rationals. -/
def Score (xxh : List Nat → Nat) (get : Nat → Finset ServerID)
    (store : Store) (request : LLMRequest)
    (cacheBlockSize maxPrefixBlocks : Nat) (pods : List Pod) :
    Store × List (Pod × ℚ) :=
  let hashes := hashPrompt xxh (some request) cacheBlockSize maxPrefixBlocks
  let state : SchedulingContextState :=
    ⟨hashes, matchLongestPrefix get hashes⟩
  let store' :=
    storeWrite store request.requestId prefixCachePluginType
      (.scorerState state)
  let total := state.prefixHashes.length
  let podScoreFunc := fun (pod : Pod) =>
    if total = 0 then (0 : ℚ)
    else (state.prefixCacheServers (serverID pod) : ℚ) / (total : ℚ)
  (store', pods.map (fun pod => (pod, podScoreFunc pod)))

/-- Embedding of Plugin.PreRequest. The error result models the Go panic
when the primary profile is missing or has no target pods; otherwise it
returns the store after the unconditional delete, the indexer Add
arguments (none when the typed read failed), and the arguments of the
cache-match metric (none when the typed read failed). -/
def PreRequest (store : Store) (request : LLMRequest)
    (schedulingResult : SchedulingResult) (hashBlockSize : Nat) :
    Except Unit (Store × Option (List Nat × ServerID) × Option (Nat × Nat)) :=
  match lookupStr schedulingResult.profileResults
      schedulingResult.primaryProfileName with
  | none => .error ()
  | some primaryProfileResult =>
    match primaryProfileResult.targetPods with
    | [] => .error ()
    | targetPod :: _ =>
      let readResult := storeRead store request.requestId prefixCachePluginType
      let store' := storeDelete store request.requestId
      match readResult with
      | .error _ => .ok (store', none, none)
      | .ok state =>
        let total := state.prefixHashes.length
        let matchLen := state.prefixCacheServers (serverID targetPod)
        .ok (store', some (state.prefixHashes, serverID targetPod),
          some (matchLen * hashBlockSize, total * hashBlockSize))

/-- Error codes of the errutil package used by the core. -/
inductive ErrCode where
  | badRequest
  | serviceUnavailable
  | inferencePoolResourceExhausted
  | internal
  deriving DecidableEq

/-- errutil.Error: an error code with a message. -/
structure Err where
  code : ErrCode
  msg : String
  deriving DecidableEq

/-- Modelled from the spec: Go json.Unmarshal of the body into
CompletionsRequest. An absent or null prompt leaves the zero value, a
string is taken as is, and any other shape is a decode error. -/
def parseCompletions (body : List (String × Json)) :
    Except Unit CompletionsRequest :=
  match lookupStr body "prompt" with
  | none => .ok ⟨""⟩
  | some .null => .ok ⟨""⟩
  | some (.str s) => .ok ⟨s⟩
  | some _ => .error ()

/-- Modelled from the spec: decoding of one chat message, an object whose
role and content fields must be strings when present. -/
def parseMessage (j : Json) : Except Unit Message :=
  match j with
  | .null => .ok ⟨"", ""⟩
  | .obj fields => do
    let role ← match lookupStr fields "role" with
      | none => Except.ok ""
      | some .null => Except.ok ""
      | some (.str s) => Except.ok s
      | some _ => Except.error ()
    let content ← match lookupStr fields "content" with
      | none => Except.ok ""
      | some .null => Except.ok ""
      | some (.str s) => Except.ok s
      | some _ => Except.error ()
    .ok ⟨role, content⟩
  | _ => .error ()

/-- Modelled from the spec: decoding of an optional string field. -/
def decodeStringField (body : List (String × Json)) (key : String) :
    Except Unit String :=
  match lookupStr body key with
  | none => .ok ""
  | some .null => .ok ""
  | some (.str s) => .ok s
  | some _ => .error ()

/-- Modelled from the spec: decoding of an optional boolean field. -/
def decodeBoolField (body : List (String × Json)) (key : String) :
    Except Unit Bool :=
  match lookupStr body key with
  | none => .ok false
  | some .null => .ok false
  | some (.bool b) => .ok b
  | some _ => .error ()

/-- Modelled from the spec: decoding of an optional array field. -/
def decodeArrayField (body : List (String × Json)) (key : String) :
    Except Unit (List Json) :=
  match lookupStr body key with
  | none => .ok []
  | some .null => .ok []
  | some (.arr xs) => .ok xs
  | some _ => .error ()

/-- Modelled from the spec: Go json.Unmarshal of the body into
ChatCompletionsRequest, with each present field required to match its
declared shape. -/
def parseChatCompletions (body : List (String × Json)) :
    Except Unit ChatCompletionsRequest := do
  let messages ← match lookupStr body "messages" with
    | none => Except.ok []
    | some .null => Except.ok []
    | some (.arr xs) => xs.mapM parseMessage
    | some _ => Except.error ()
  let tools ← decodeArrayField body "tools"
  let documents ← decodeArrayField body "documents"
  let chatTemplate ← decodeStringField body "chat_template"
  let returnAssistantTokensMask ←
    decodeBoolField body "return_assistant_tokens_mask"
  let continueFinalMessage ← decodeBoolField body "continue_final_message"
  let addGenerationPrompt ← decodeBoolField body "add_generation_prompt"
  let chatTemplateKWArgs ← match lookupStr body "chat_template_kwargs" with
    | none => Except.ok []
    | some .null => Except.ok []
    | some (.obj o) => Except.ok o
    | some _ => Except.error ()
  .ok ⟨messages, tools, documents, chatTemplate, returnAssistantTokensMask,
    continueFinalMessage, addGenerationPrompt, chatTemplateKWArgs⟩

/-- Embedding of validateChatCompletionsMessages: the messages sequence
must be non-empty. -/
def validateChatCompletionsMessages (messages : List Message) : Option Err :=
  if messages.length = 0 then
    some ⟨.badRequest, "chat-completions request must have at least one message"⟩
  else none

/-- Chat-completions branch of ExtractRequestData. -/
def extractChatData (body : List (String × Json)) :
    Except Err LLMRequestData :=
  match parseChatCompletions body with
  | .error _ => .error ⟨.badRequest, "invalid request format"⟩
  | .ok chatCompletions =>
    match validateChatCompletionsMessages chatCompletions.messages with
    | some e =>
      .error ⟨.badRequest, "invalid chat-completions request: " ++ e.msg⟩
    | none => .ok ⟨none, some chatCompletions⟩

/-- Embedding of ExtractRequestData: try the completions decode first and
take it when the prompt is non-empty, otherwise decode as
chat-completions. The marshal round trip of the source preserves the body
map, so the decoders read the map directly. -/
def ExtractRequestData (body : List (String × Json)) :
    Except Err LLMRequestData :=
  match parseCompletions body with
  | .ok completions =>
    if completions.prompt ≠ "" then .ok ⟨some completions, none⟩
    else extractChatData body
  | .error _ => extractChatData body

/-- Errors surfaced by HandleRequest: an errutil.Error built by the
Director, or a datastore error from PoolGet propagated unchanged. -/
inductive HandlerErr where
  | api (e : Err) : HandlerErr
  | poolGet (msg : String) : HandlerErr
  deriving DecidableEq

/-- Inference pool as read from the datastore; only the target ports
matter to the Director. -/
structure Pool where
  targetPorts : List Nat
  deriving DecidableEq

/-- External collaborators of the Director for one request: the objective
lookup result (absent, present with nil priority, or present with a
priority), the saturation signal, the pod list, and the scheduler and
pool results. -/
structure Env where
  objectivePriority : Option (Option Int)
  isSaturated : Bool
  podList : List Pod
  scheduleResult : Except String SchedulingResult
  poolResult : Except String Pool

/-- Incoming request: body map, headers and metadata. -/
structure Request where
  body : List (String × Json)
  headers : List (String × String)
  metadata : List (String × Json)

/-- RequestContext threaded through HandleRequest. -/
structure RequestContext where
  request : Request
  targetModelName : String
  incomingModelName : String
  objectiveKey : String
  fairnessID : String
  schedulingRequest : Option LLMRequest
  targetPod : Option Pod
  targetEndpoint : String

/-- Header key carrying the request id. -/
def requestIdHeaderKey : String := "x-request-id"

/-- Namespace of the subset filter in the request metadata. -/
def subsetFilterNamespace : String := "envoy.lb"

/-- Key of the endpoint subset filter in the request metadata. -/
def subsetFilterKey : String := "x-gateway-destination-endpoint-subset"

/-- Priority resolved from the objective lookup: 0 when the objective is
absent or its priority is nil. -/
def resolvedPriority (env : Env) : Int :=
  match env.objectivePriority with
  | none => 0
  | some none => 0
  | some (some p) => p

/-- Embedding of admitRequest. The boolean records whether the branch
that calls SaturationDetector.IsSaturated was taken. -/
def admitRequest (requestPriority : Int) (isSaturated : Bool) :
    Option Err × Bool :=
  if 0 ≤ requestPriority then (none, false)
  else if isSaturated then
    (some ⟨.inferencePoolResourceExhausted,
      "system saturated, sheddable request dropped"⟩, true)
  else (none, true)

/-- Address part of an endpoint string: strings.Split(endpoint, ":")[0]. -/
def splitHostPart (s : String) : String :=
  String.mk (s.data.takeWhile (fun c => c ≠ ':'))

/-- Comma-ok string type assertion on a map lookup: some when the value
is present and a string. -/
def asStr : Option Json → Option String
  | some (.str s) => some s
  | _ => none

/-- Comma-ok object type assertion on a map lookup. -/
def asObj : Option Json → Option (List (String × Json))
  | some (.obj fields) => some fields
  | _ => none

/-- Comma-ok array type assertion on a map lookup. -/
def asArr : Option Json → Option (List Json)
  | some (.arr elems) => some elems
  | _ => none

/-- Filtering branch of getCandidatePodsForScheduling once a non-absent
endpoint subset list was found: an empty list filters out every pod;
otherwise each element is cast to a string by an unchecked type assertion
(the error result models the Go panic) and pods are kept when their
address appears among the endpoint address parts. -/
def subsetFilteredPods (endpointSubsetList : List Json)
    (podList : List Pod) : Except Unit (List Pod) :=
  if endpointSubsetList.length = 0 then .ok []
  else do
    let endpoints ← endpointSubsetList.foldlM
      (fun (acc : List String) endpoint =>
        match endpoint with
        | .str s => Except.ok (acc ++ [splitHostPart s])
        | _ => Except.error ())
      []
    .ok (podList.filter (fun pod => decide (pod.address ∈ endpoints)))

/-- Endpoint-key step of getCandidatePodsForScheduling: all pods when the
subset key is absent or not a list, the filtering branch otherwise. -/
def getCandidatePodsSubset (subsetMap : List (String × Json))
    (podList : List Pod) : Except Unit (List Pod) :=
  match asArr (lookupStr subsetMap subsetFilterKey) with
  | none => .ok podList
  | some endpointSubsetList => subsetFilteredPods endpointSubsetList podList

/-- Embedding of getCandidatePodsForScheduling. No filtering happens when
the subset namespace or key is absent or has the wrong shape. -/
def getCandidatePodsForScheduling (requestMetadata : List (String × Json))
    (podList : List Pod) : Except Unit (List Pod) :=
  match asObj (lookupStr requestMetadata subsetFilterNamespace) with
  | none => .ok podList
  | some subsetMap => getCandidatePodsSubset subsetMap podList

/-- net.JoinHostPort for the host names used here. -/
def joinHostPort (host : String) (port : Nat) : String :=
  host ++ ":" ++ toString port

/-- Target pods of the primary profile; iterating a missing profile in Go
yields the empty list. -/
def profilePods (result : SchedulingResult) : List Pod :=
  match lookupStr result.profileResults result.primaryProfileName with
  | none => []
  | some pr => pr.targetPods

/-- Final step of prepareRequest once the pool was read: require exactly
one target port, then set the target pod and the comma-joined endpoints
of the primary profile. The error result models the Go index panic when
the primary profile is missing or empty. -/
def preparePorts (reqCtx : RequestContext) (result : SchedulingResult)
    (pool : Pool) : Except Unit (RequestContext × Option HandlerErr) :=
  if pool.targetPorts.length ≠ 1 then
    .ok (reqCtx, some (.api ⟨.badRequest, "targetPorts should have length 1"⟩))
  else
    match profilePods result with
    | [] => .error ()
    | targetPod0 :: _ =>
      .ok ({ reqCtx with
              targetPod := some targetPod0,
              targetEndpoint := String.intercalate ","
                ((profilePods result).map
                  (fun pod => joinHostPort pod.address (pool.targetPorts.headD 0))) },
           none)

/-- Embedding of prepareRequest: reject an empty scheduling result, read
the pool, then preparePorts. -/
def prepareRequest (env : Env) (reqCtx : RequestContext)
    (result : SchedulingResult) :
    Except Unit (RequestContext × Option HandlerErr) :=
  if result.profileResults.length = 0 then
    .ok (reqCtx, some (.api ⟨.internal, "results must be greater than zero"⟩))
  else
    match env.poolResult with
    | .error e => .ok (reqCtx, some (.poolGet e))
    | .ok pool => preparePorts reqCtx result pool

/-- Context updates of HandleRequest step 1: record the incoming model,
default the target model to it, and overwrite the model field of the
body in place. -/
def withModel (reqCtx : RequestContext) (m : String) : RequestContext :=
  let ctx1 := { reqCtx with incomingModelName := m }
  let ctx2 :=
    if ctx1.targetModelName = "" then
      { ctx1 with targetModelName := ctx1.incomingModelName }
    else ctx1
  { ctx2 with
      request := { ctx2.request with
        body := insertStr ctx2.request.body "model" (Json.str ctx2.targetModelName) } }

/-- Context update assembling the LLMRequest for scheduling. -/
def withSchedulingRequest (reqCtx : RequestContext) (data : LLMRequestData) :
    RequestContext :=
  { reqCtx with
      schedulingRequest := some
        { requestId := (lookupStr reqCtx.request.headers requestIdHeaderKey).getD ""
          targetModel := reqCtx.targetModelName
          data := data
          headers := reqCtx.request.headers } }

/-- Scheduling step of HandleRequest (steps 3 and 4 of the source):
candidate selection (whose panic propagates), the empty-candidate error,
the scheduler call, and prepareRequest. -/
def handleScheduling (env : Env) (ctx2 : RequestContext) :
    Except Unit (RequestContext × Option HandlerErr) :=
  match getCandidatePodsForScheduling ctx2.request.metadata env.podList with
  | .error _ => .error ()
  | .ok candidatePods =>
    if candidatePods.length = 0 then
      .ok (ctx2, some (.api ⟨.serviceUnavailable,
        "failed to find candidate pods for serving the request"⟩))
    else
      match env.scheduleResult with
      | .error cause =>
        .ok (ctx2, some (.api ⟨.inferencePoolResourceExhausted,
          "failed to find target pod: " ++ cause⟩))
      | .ok result => prepareRequest env ctx2 result

/-- Admission step of HandleRequest (step 2 of the source). -/
def handleAdmission (env : Env) (ctx2 : RequestContext) :
    Except Unit (RequestContext × Option HandlerErr) :=
  match (admitRequest (resolvedPriority env) env.isSaturated).1 with
  | some e => .ok (ctx2, some (.api e))
  | none => handleScheduling env ctx2

/-- Extraction step of HandleRequest, after the model rewrite. -/
def handleParsed (env : Env) (ctx1 : RequestContext) :
    Except Unit (RequestContext × Option HandlerErr) :=
  match ExtractRequestData ctx1.request.body with
  | .error e =>
    .ok (ctx1, some (.api ⟨.badRequest,
      "failed to extract request data: " ++ e.msg⟩))
  | .ok requestData => handleAdmission env (withSchedulingRequest ctx1 requestData)

/-- Embedding of Director.HandleRequest, split along the numbered steps
of the source: parse, extract, admit, select candidates, schedule,
prepare. Every non-panicking path returns the request context beside the
optional error; the error result models a Go panic inside candidate
selection or prepareRequest. -/
def HandleRequest (env : Env) (reqCtx : RequestContext) :
    Except Unit (RequestContext × Option HandlerErr) :=
  match asStr (lookupStr reqCtx.request.body "model") with
  | some m => handleParsed env (withModel reqCtx m)
  | none =>
    .ok (reqCtx, some (.api ⟨.badRequest, "model not found in request body"⟩))

/-- Predicate of ExtractRequestData taking the chat-completions branch:
the completions decode failed or produced an empty prompt. -/
def completionsRejected (body : List (String × Json)) : Prop :=
  parseCompletions body = .error () ∨
    ∃ c, parseCompletions body = .ok c ∧ c.prompt = ""

/-- Concrete hash function used by witnesses; the claims hold for every
hash function. -/
def wXxh (l : List Nat) : Nat :=
  l.foldl (fun a b => a * 257 + b + 1) 1

/-- Replica used by the double-credit counterexample. -/
def serverR : ServerID := ⟨"default", "r"⟩

/-- Second replica of the double-credit counterexample. -/
def serverS : ServerID := ⟨"default", "s"⟩

/-- Indexer view of the double-credit counterexample: block hash 0 is
cached only by serverS and block hash 1 only by serverR; such a view is
reachable, for example after per-replica LRU eviction removed the first
block of serverR while a later block survived. -/
def dcGet : Nat → Finset ServerID :=
  fun h => if h = 0 then {serverS} else if h = 1 then {serverR} else ∅

/-- Request context template with empty fields. -/
def emptyCtx : RequestContext :=
  { request := { body := [], headers := [], metadata := [] }
    targetModelName := ""
    incomingModelName := ""
    objectiveKey := ""
    fairnessID := ""
    schedulingRequest := none
    targetPod := none
    targetEndpoint := "" }

/-- Environment of the empty-model counterexample: objective absent,
detector unsaturated, no pods. -/
def cex2Env : Env :=
  { objectivePriority := none
    isSaturated := false
    podList := []
    scheduleResult := .error "unused"
    poolResult := .error "unused" }

/-- Request context of the empty-model counterexample: the model field is
the empty string and the prompt is valid. -/
def cex2Ctx : RequestContext :=
  { emptyCtx with
      request := { body := [("model", Json.str ""), ("prompt", Json.str "hi")],
                   headers := [], metadata := [] } }

/-- Environment of the admission witness: priority -1 and a saturated
detector. -/
def w7Env : Env :=
  { objectivePriority := some (some (-1))
    isSaturated := true
    podList := []
    scheduleResult := .error "unused"
    poolResult := .error "unused" }

/-- Request context of the admission witness. -/
def w7Ctx : RequestContext :=
  { emptyCtx with
      request := { body := [("model", Json.str "m"), ("prompt", Json.str "hi")],
                   headers := [], metadata := [] } }

/-- Extracted data of the admission witness. -/
def w7Data : LLMRequestData := ⟨some ⟨"hi"⟩, none⟩

/-- Store of the PreRequest witness: holds data of the wrong type under
the prefix-scorer key, so the typed read fails. -/
def w8Store : Store := [("req1", [(prefixCachePluginType, StateData.other)])]

/-- Request of the PreRequest witness. -/
def w8Request : LLMRequest :=
  { requestId := "req1", targetModel := "m",
    data := ⟨some ⟨"hi"⟩, none⟩, headers := [] }

/-- Pod of the PreRequest and scoring witnesses. -/
def wPod : Pod := ⟨⟨"default", "pod0"⟩, "10.0.0.1"⟩

/-- Scheduling result of the PreRequest witness. -/
def w8Result : SchedulingResult :=
  { primaryProfileName := "primary", profileResults := [("primary", ⟨[wPod]⟩)] }

/-- Metadata of the candidate-selection panic counterexample: the subset
filter endpoint list holds an object instead of a string. -/
def w9Metadata : List (String × Json) :=
  [(subsetFilterNamespace, Json.obj
    [(subsetFilterKey, Json.arr
      [Json.obj [("endpoint", Json.str "10.0.0.1:8080")]])])]

/-- Request of the hashing witnesses: a completions prompt of three
bytes. -/
def w3Request : LLMRequest :=
  { requestId := "r1", targetModel := "m",
    data := ⟨some ⟨"abc"⟩, none⟩, headers := [] }

/-- Body of the extractor witness. -/
def w6Body : List (String × Json) :=
  [("model", Json.str "m"), ("prompt", Json.str "p")]

/-- Error returned when the model field is absent or not a string. -/
def modelNotFoundErr : HandlerErr :=
  .api ⟨.badRequest, "model not found in request body"⟩

/-- Error returned when a sheddable request is dropped under saturation. -/
def saturatedErr : Err :=
  ⟨.inferencePoolResourceExhausted, "system saturated, sheddable request dropped"⟩

/-- Shapes of every error an ok result of handleScheduling can carry. -/
def schedResultErr (e : HandlerErr) : Prop :=
  e = .api ⟨.serviceUnavailable,
    "failed to find candidate pods for serving the request"⟩
  ∨ (∃ cause, e = .api ⟨.inferencePoolResourceExhausted,
      "failed to find target pod: " ++ cause⟩)
  ∨ e = .api ⟨.internal, "results must be greater than zero"⟩
  ∨ (∃ msg, e = .poolGet msg)
  ∨ e = .api ⟨.badRequest, "targetPorts should have length 1"⟩

/-! Supporting lemmas. -/

theorem blockLoopF_bs_zero (xxh : List Nat → Nat) (input : List Nat) :
    ∀ (fuel i prev : Nat) (acc : List Nat), i ≤ input.length →
      blockLoopF xxh input 0 fuel i prev acc = none := by
  intro fuel
  induction fuel with
  | zero =>
    intro i prev acc h
    simp [blockLoopF, h]
  | succ n ih =>
    intro i prev acc h
    rw [blockLoopF]
    simp only [Nat.add_zero, h, if_pos]
    exact ih (i + 0) _ _ (by simpa using h)

theorem blockLoopF_spec (xxh : List Nat → Nat) (input : List Nat) (bs : Nat)
    (hbs : 0 < bs) :
    ∀ (fuel i prev : Nat) (acc : List Nat),
      (input.length - i) / bs < fuel →
      blockLoopF xxh input bs fuel i prev acc =
        some (acc ++ chainN xxh input bs ((input.length - i) / bs) i prev) := by
  intro fuel
  induction fuel with
  | zero =>
    intro i prev acc h
    exact absurd h (Nat.not_lt_zero _)
  | succ n ih =>
    intro i prev acc h
    rw [blockLoopF]
    by_cases hg : i + bs ≤ input.length
    · have hle : bs ≤ input.length - i := by omega
      have hdiv : (input.length - i) / bs = (input.length - (i + bs)) / bs + 1 := by
        conv_lhs => rw [Nat.div_eq]
        have hsub : input.length - i - bs = input.length - (i + bs) := by omega
        simp [hbs, hle, hsub]
      rw [if_pos hg, ih (i + bs) _ _ (by omega), hdiv, chainN]
      simp

    · have hz : (input.length - i) / bs = 0 := by
        apply Nat.div_eq_of_lt
        omega
      rw [if_neg hg, hz, chainN]
      simp

theorem hashUserInput_eq (xxh : List Nat → Nat) (targetModel : String)
    (userInput : List Nat) (bs mb : Nat) (hbs : 0 < bs) :
    hashUserInput xxh targetModel userInput bs mb =
      some (hashChain xxh targetModel userInput bs mb) := by
  unfold hashUserInput hashChain
  by_cases hlt : userInput.length < bs
  · simp [hlt]
  · rw [if_neg hlt, if_neg hlt]
    set input : List Nat :=
      if bs * mb < userInput.length then userInput.take (mb * bs) else userInput
    have hfuel : (input.length - 0) / bs < input.length + 1 := by
      have h0 : (input.length - 0) / bs ≤ input.length := by
        simpa using Nat.div_le_self input.length bs
      omega
    have := blockLoopF_spec xxh input bs hbs (input.length + 1) 0
      (xxh (strBytes targetModel)) [] hfuel
    simpa using this

theorem chainN_length (xxh : List Nat → Nat) (input : List Nat) (bs : Nat) :
    ∀ (n i prev : Nat), (chainN xxh input bs n i prev).length = n := by
  intro n
  induction n with
  | zero => intro i prev; rfl
  | succ m ih => intro i prev; rw [chainN]; simp [ih]

theorem hashChain_length (xxh : List Nat → Nat) (targetModel : String)
    (userInput : List Nat) (bs mb : Nat) (hmb : 0 < mb) :
    (hashChain xxh targetModel userInput bs mb).length =
      min userInput.length (bs * mb) / bs := by
  unfold hashChain
  by_cases hlt : userInput.length < bs
  · have hbound : userInput.length < bs * mb ∨ userInput.length ≤ bs * mb := by
      right
      calc userInput.length ≤ bs := Nat.le_of_lt hlt
        _ ≤ bs * mb := Nat.le_mul_of_pos_right bs hmb
    have hmin : min userInput.length (bs * mb) = userInput.length := by
      rcases hbound with h | h <;> omega
    rw [if_pos hlt, hmin]
    simp [Nat.div_eq_of_lt hlt]
  · rw [if_neg hlt]
    by_cases htr : bs * mb < userInput.length
    · have hmin : min userInput.length (bs * mb) = bs * mb := by omega
      rw [if_pos htr, chainN_length, hmin]
      simp [List.length_take]
      have : mb * bs ≤ userInput.length := by
        calc mb * bs = bs * mb := Nat.mul_comm mb bs
          _ ≤ userInput.length := Nat.le_of_lt htr
      rw [min_eq_left this, Nat.mul_comm mb bs]
    · have hmin : min userInput.length (bs * mb) = userInput.length := by omega
      rw [if_neg htr, chainN_length, hmin]

theorem chainN_take (xxh : List Nat → Nat) (input : List Nat) (bs m : Nat) :
    ∀ (n i prev : Nat), i + n * bs ≤ m →
      chainN xxh (input.take m) bs n i prev = chainN xxh input bs n i prev := by
  intro n
  induction n with
  | zero => intro i prev _; rfl
  | succ k ih =>
    intro i prev h
    have hib : i + bs ≤ m := by
      have : bs ≤ (k + 1) * bs := Nat.le_mul_of_pos_left bs (Nat.succ_pos k)
      omega
    have hslice : ((input.take m).drop i).take bs = (input.drop i).take bs := by
      rw [List.drop_take, List.take_take]
      have : bs ⊓ (m - i) = bs := by
        apply min_eq_left
        omega
      rw [this]
    rw [chainN, chainN, hslice]
    congr 1
    apply ih
    have : (k + 1) * bs = k * bs + bs := by ring
    omega

theorem chainN_getElem (xxh : List Nat → Nat) (targetModel : String)
    (input : List Nat) (bs : Nat) :
    ∀ (n k j : Nat), j < n →
      (chainN xxh input bs n (k * bs)
        (specChainH xxh targetModel input bs k))[j]? =
      some (specChainH xxh targetModel input bs (k + j + 1)) := by
  intro n
  induction n with
  | zero => intro k j h; exact absurd h (Nat.not_lt_zero _)
  | succ m ih =>
    intro k j h
    rw [chainN]
    have hstep : xxh ((input.drop (k * bs)).take bs
        ++ toBytes (specChainH xxh targetModel input bs k)) =
        specChainH xxh targetModel input bs (k + 1) := by
      rw [specChainH]
    cases j with
    | zero =>
      simp only [List.getElem?_cons_zero]
      rw [hstep]
    | succ j' =>
      simp only [List.getElem?_cons_succ]
      have harg : k * bs + bs = (k + 1) * bs := by ring
      rw [hstep, harg, ih (k + 1) j' (by omega)]
      congr 2
      omega

theorem chainN_getElem_zero (xxh : List Nat → Nat) (targetModel : String)
    (input : List Nat) (bs : Nat) :
    ∀ (n j : Nat), j < n →
      (chainN xxh input bs n 0 (xxh (strBytes targetModel)))[j]? =
        some (specChainH xxh targetModel input bs (j + 1)) := by
  intro n j h
  have h0 := chainN_getElem xxh targetModel input bs n 0 j h
  simpa [specChainH] using h0

theorem hashChain_getElem (xxh : List Nat → Nat) (targetModel : String)
    (userInput : List Nat) (bs mb : Nat) :
    ∀ i, i < (hashChain xxh targetModel userInput bs mb).length →
      (hashChain xxh targetModel userInput bs mb)[i]? =
        some (specChainH xxh targetModel userInput bs (i + 1)) := by
  intro i hi
  unfold hashChain at hi ⊢
  by_cases hlt : userInput.length < bs
  · rw [if_pos hlt] at hi
    exact absurd hi (by simp)
  · rw [if_neg hlt] at hi ⊢
    by_cases htr : bs * mb < userInput.length
    · rw [if_pos htr] at hi ⊢
      rw [chainN_length] at hi
      have hbound : 0 + (userInput.take (mb * bs)).length / bs * bs ≤ mb * bs := by
        have h1 := Nat.div_mul_le_self (userInput.take (mb * bs)).length bs
        have h2 : (userInput.take (mb * bs)).length ≤ mb * bs := by
          simp [List.length_take]
        omega
      rw [chainN_take xxh userInput bs (mb * bs) _ 0 _ hbound]
      exact chainN_getElem_zero xxh targetModel userInput bs _ i hi
    · rw [if_neg htr] at hi ⊢
      rw [chainN_length] at hi
      exact chainN_getElem_zero xxh targetModel userInput bs _ i hi

theorem mlpAux_le (get : Nat → Finset ServerID) :
    ∀ (hashes : List Nat) (res : ServerID → Nat) (server : ServerID),
      mlpAux get hashes res server ≤ res server + hashes.length := by
  intro hashes
  induction hashes with
  | nil => intro res server; simp [mlpAux]
  | cons h rest ih =>
    intro res server
    rw [mlpAux]
    by_cases he : get h = ∅
    · simp [he]
    · rw [if_neg he]
      have := ih (fun s => if s ∈ get h then res s + 1 else res s) server
      by_cases hm : server ∈ get h
      · simp only [hm, if_pos] at this
        simp only [List.length_cons]
        omega
      · simp only [hm, if_neg, not_false_iff] at this
        simp only [List.length_cons]
        omega

theorem matchLongestPrefix_le (get : Nat → Finset ServerID)
    (hashes : List Nat) (server : ServerID) :
    matchLongestPrefix get hashes server ≤ hashes.length := by
  have := mlpAux_le get hashes (fun _ => 0) server
  simpa using this

theorem lookupStr_storeDelete (store : Store) (requestId : String) :
    lookupStr (storeDelete store requestId) requestId = none := by
  induction store with
  | nil => rfl
  | cons kv rest ih =>
    obtain ⟨k, v⟩ := kv
    unfold storeDelete at ih ⊢
    simp only [decide_not] at ih ⊢
    by_cases hk : k = requestId
    · simp [List.filter_cons, hk, ih]
    · simp [List.filter_cons, hk, lookupStr, ih]

theorem string_append_ne (p s t : String)
    (hne : p.data.head? ≠ t.data.head?) (hp : p.data ≠ []) :
    p ++ s ≠ t := by
  intro h
  apply hne
  have hdata : (p ++ s).data = t.data := congrArg String.data h
  rw [String.data_append] at hdata
  rw [← hdata]
  cases hpd : p.data with
  | nil => exact absurd hpd hp
  | cons c cs => simp

theorem foldEndpoints_ok :
    ∀ (eps : List Json) (acc : List String),
      (∀ e ∈ eps, ∃ s, e = Json.str s) →
      ∃ out, (eps.foldlM
        (fun (acc : List String) endpoint =>
          match endpoint with
          | Json.str s => Except.ok (acc ++ [splitHostPart s])
          | _ => Except.error ())
        acc : Except Unit (List String)) = .ok out := by
  intro eps
  induction eps with
  | nil => intro acc _; exact ⟨acc, rfl⟩
  | cons e rest ih =>
    intro acc h
    obtain ⟨s, hs⟩ := h e (by simp)
    subst hs
    simpa [List.foldlM] using
      ih (acc ++ [splitHostPart s]) (fun x hx => h x (by simp [hx]))

/-! Claim theorems. -/

/-- Claim C10: the block loop of hashPrompt terminates for every request
when the block size is positive, and it agrees with the total closed form
hashChain; the precondition is necessary, because for block size 0 the
loop index never advances and the loop never exits, whatever the fuel, so
the function diverges (the embedding returns none for every fuel). -/
theorem hashPrompt_terminates_iff_pos (xxh : List Nat → Nat)
    (targetModel : String) (userInput : List Nat) (mb : Nat) :
    (∀ bs, 0 < bs → hashUserInput xxh targetModel userInput bs mb =
      some (hashChain xxh targetModel userInput bs mb))
    ∧ (∀ (input : List Nat) (fuel i prev : Nat) (acc : List Nat),
        i ≤ input.length → blockLoopF xxh input 0 fuel i prev acc = none)
    ∧ hashUserInput xxh targetModel userInput 0 mb = none := by
  refine ⟨fun bs hbs => hashUserInput_eq xxh targetModel userInput bs mb hbs,
    fun input => blockLoopF_bs_zero xxh input, ?_⟩
  unfold hashUserInput
  rw [if_neg (Nat.not_lt_zero _)]
  simp only [Nat.zero_mul, Nat.mul_zero, List.take_zero]
  by_cases h : 0 < userInput.length
  · rw [if_pos h]
    exact blockLoopF_bs_zero xxh [] _ 0 _ _ (Nat.zero_le _)
  · rw [if_neg h]
    exact blockLoopF_bs_zero xxh userInput _ 0 _ _ (Nat.zero_le _)

/-- Witness for C10 at a concrete three-byte prompt. -/
theorem hashPrompt_terminates_iff_pos_w :
    hashUserInput wXxh "m" (strBytes "abc") 1 2 =
      some (hashChain wXxh "m" (strBytes "abc") 1 2)
    ∧ blockLoopF wXxh [] 0 3 0 0 [] = none
    ∧ hashUserInput wXxh "m" (strBytes "abc") 0 2 = none := by
  obtain ⟨h1, h2, h3⟩ :=
    hashPrompt_terminates_iff_pos wXxh "m" (strBytes "abc") 2
  exact ⟨h1 1 (by decide), h2 [] 3 0 0 [] (by decide), h3⟩

/-- Claim C3: for a request whose user-input byte string has length L and
positive block size and max blocks, the block loop terminates with the
value of hashPrompt, and the emitted sequence has length exactly
min(L, block_size*max_blocks) / block_size under integer division. -/
theorem hashPrompt_length_spec (xxh : List Nat → Nat) (req : LLMRequest)
    (userInput : List Nat) (bs mb : Nat)
    (hu : getUserInputBytes req.data = some userInput)
    (hbs : 0 < bs) (hmb : 0 < mb) :
    hashUserInput xxh req.targetModel userInput bs mb =
      some (hashPrompt xxh (some req) bs mb)
    ∧ (hashPrompt xxh (some req) bs mb).length =
      min userInput.length (bs * mb) / bs := by
  have hp : hashPrompt xxh (some req) bs mb =
      hashChain xxh req.targetModel userInput bs mb := by
    simp only [hashPrompt, hu]
  rw [hp]
  exact ⟨hashUserInput_eq xxh req.targetModel userInput bs mb hbs,
    hashChain_length xxh req.targetModel userInput bs mb hmb⟩

/-- Witness for C3: a three-byte prompt with block size 2 and up to three
blocks yields exactly one hash. -/
theorem hashPrompt_length_spec_w :
    hashUserInput wXxh w3Request.targetModel (strBytes "abc") 2 3 =
      some (hashPrompt wXxh (some w3Request) 2 3)
    ∧ (hashPrompt wXxh (some w3Request) 2 3).length =
      min (strBytes "abc").length (2 * 3) / 2 :=
  hashPrompt_length_spec wXxh w3Request (strBytes "abc") 2 3 rfl
    (by decide) (by decide)

/-- Claim C4: the i-th element emitted by hashPrompt is the chained hash
h (i+1), where h 0 hashes the target model and h (i+1) hashes bytes
[i*bs, (i+1)*bs) of the user input concatenated with the little-endian
8-byte encoding of h i, emitted in increasing block order. -/
theorem hashPrompt_chained (xxh : List Nat → Nat) (req : LLMRequest)
    (userInput : List Nat) (bs mb : Nat)
    (hu : getUserInputBytes req.data = some userInput)
    (_hbs : 0 < bs) :
    ∀ i, i < (hashPrompt xxh (some req) bs mb).length →
      (hashPrompt xxh (some req) bs mb)[i]? =
        some (specChainH xxh req.targetModel userInput bs (i + 1)) := by
  have hp : hashPrompt xxh (some req) bs mb =
      hashChain xxh req.targetModel userInput bs mb := by
    simp only [hashPrompt, hu]
  rw [hp]
  exact hashChain_getElem xxh req.targetModel userInput bs mb

/-- Witness for C4 at block 0 of a three-byte prompt with block size 1. -/
theorem hashPrompt_chained_w :
    (hashPrompt wXxh (some w3Request) 1 3)[0]? =
      some (specChainH wXxh w3Request.targetModel (strBytes "abc") 1 (0 + 1)) :=
  hashPrompt_chained wXxh w3Request (strBytes "abc") 1 3 rfl (by decide) 0
    (by decide)

/-- Claim C1 (refuted, see the divergence note): matchLongestPrefix does
not always equal the longest contiguous prefix match starting at block 0.
With the indexer view dcGet, replica serverR misses block 0 (whose set
holds only serverS, so the walk does not stop) and matches block 1, and
the walk credits it 1 although its longest contiguous prefix from block 0
has length 0. -/
theorem matchLongestPrefix_double_credit :
    matchLongestPrefix dcGet [0, 1] serverR = 1
    ∧ longestContiguousMatch dcGet [0, 1] serverR = 0 := by
  decide

/-- Claim C5: every candidate pod is scored match_len / total_blocks when
total_blocks > 0 and 0 when total_blocks = 0, where match_len is the
entry of the pod in prefix_cache_servers (0 when absent, built into the
zero default of the map embedding); and every returned score lies in
[0, 1], because the match length never exceeds the number of prefix
hashes. -/
theorem score_spec (xxh : List Nat → Nat) (get : Nat → Finset ServerID)
    (store : Store) (request : LLMRequest) (bs mb : Nat) (pods : List Pod) :
    ∀ pr ∈ (Score xxh get store request bs mb pods).2,
      pr.2 = (if (hashPrompt xxh (some request) bs mb).length = 0 then (0 : ℚ)
        else ( matchLongestPrefix get (hashPrompt xxh (some request) bs mb)
            (serverID pr.1) : ℚ)
          / ((hashPrompt xxh (some request) bs mb).length : ℚ))
      ∧ 0 ≤ pr.2 ∧ pr.2 ≤ 1 := by
  have hs : (Score xxh get store request bs mb pods).2 =
      pods.map (fun pod =>
        (pod, if (hashPrompt xxh (some request) bs mb).length = 0 then (0 : ℚ)
          else ( matchLongestPrefix get (hashPrompt xxh (some request) bs mb)
              (serverID pod) : ℚ)
            / ((hashPrompt xxh (some request) bs mb).length : ℚ))) := rfl
  intro pr hpr
  rw [hs] at hpr
  simp only [List.mem_map] at hpr
  obtain ⟨pod, _hpod, rfl⟩ := hpr
  refine ⟨rfl, ?_, ?_⟩
  · by_cases h0 : (hashPrompt xxh (some request) bs mb).length = 0
    · simp [h0]
    · have ht : (0 : ℚ) < ((hashPrompt xxh (some request) bs mb).length : ℚ) :=
        Nat.cast_pos.mpr (Nat.pos_of_ne_zero h0)
      simp only [h0, if_neg, not_false_iff]
      exact div_nonneg (Nat.cast_nonneg _) (le_of_lt ht)
  · by_cases h0 : (hashPrompt xxh (some request) bs mb).length = 0
    · simp [h0]
    · have ht : (0 : ℚ) < ((hashPrompt xxh (some request) bs mb).length : ℚ) :=
        Nat.cast_pos.mpr (Nat.pos_of_ne_zero h0)
      simp only [h0, if_neg, not_false_iff]
      rw [div_le_one ht]
      exact_mod_cast matchLongestPrefix_le get
        (hashPrompt xxh (some request) bs mb) (serverID pod)

/-- Witness for C5: a single candidate pod with no hashes (zero max
blocks) scores zero. -/
theorem score_spec_w :
    ((wPod, (0 : ℚ)) : Pod × ℚ).2 =
      (if (hashPrompt wXxh (some w3Request) 2 0).length = 0 then (0 : ℚ)
        else ( matchLongestPrefix (fun _ => ∅)
            (hashPrompt wXxh (some w3Request) 2 0)
            (serverID ((wPod, (0 : ℚ)) : Pod × ℚ).1) : ℚ)
          / ((hashPrompt wXxh (some w3Request) 2 0).length : ℚ))
    ∧ 0 ≤ ((wPod, (0 : ℚ)) : Pod × ℚ).2
    ∧ ((wPod, (0 : ℚ)) : Pod × ℚ).2 ≤ 1 :=
  score_spec wXxh (fun _ => ∅) [] w3Request 2 0 [wPod] (wPod, 0)
    (by
      show ((wPod, (0 : ℚ)) : Pod × ℚ) ∈ [((wPod, (0 : ℚ)) : Pod × ℚ)]
      exact List.mem_singleton_self _)

/-- Claim C8: whatever the outcome of the typed state read, after
PreRequest returns normally the plugin state store holds no entry for the
request id, and on read failure neither an indexer write nor a metric
emission happens. -/
theorem preRequest_cleanup (store : Store) (request : LLMRequest)
    (schedulingResult : SchedulingResult) (hashBlockSize : Nat) :
    ∀ store' adds metric,
      PreRequest store request schedulingResult hashBlockSize =
        .ok (store', adds, metric) →
      lookupStr store' request.requestId = none
      ∧ (storeRead store request.requestId prefixCachePluginType = .error () →
          adds = none ∧ metric = none) := by
  intro store' adds metric h
  unfold PreRequest at h
  split at h
  · exact absurd h (by simp)
  · split at h
    · exact absurd h (by simp)
    · dsimp only at h
      split at h
      · rename_i heq
        simp only [Except.ok.injEq, Prod.mk.injEq] at h
        obtain ⟨h1, h2, h3⟩ := h
        subst h1
        exact ⟨lookupStr_storeDelete store request.requestId,
          fun _ => ⟨h2.symm, h3.symm⟩⟩
      · rename_i state heq
        simp only [Except.ok.injEq, Prod.mk.injEq] at h
        obtain ⟨h1, _h2, _h3⟩ := h
        subst h1
        refine ⟨lookupStr_storeDelete store request.requestId, fun hc => ?_⟩
        rw [heq] at hc
        exact absurd hc (by simp)

/-- Witness for C8: a store whose entry has the wrong type: the read
fails, the entry is deleted anyway, and nothing is written or emitted. -/
theorem preRequest_cleanup_w :
    lookupStr (storeDelete w8Store w8Request.requestId) w8Request.requestId = none
    ∧ (storeRead w8Store w8Request.requestId prefixCachePluginType = .error () →
        (none : Option (List Nat × ServerID)) = none
        ∧ (none : Option (Nat × Nat)) = none) :=
  preRequest_cleanup w8Store w8Request w8Result 64
    (storeDelete w8Store w8Request.requestId) none none (by rfl)

/-- Claim C9: candidate selection is total when every element of a
present, non-empty subset-filter endpoint list is a string, and it panics
(the unchecked string type assertion) on a metadata map whose endpoint
list holds an object instead of a string. -/
theorem getCandidatePods_total_unless_nonstring :
    (∀ (requestMetadata : List (String × Json)) (podList : List Pod),
      (∀ subsetMap, asObj (lookupStr requestMetadata subsetFilterNamespace) =
          some subsetMap →
        ∀ eps, asArr (lookupStr subsetMap subsetFilterKey) = some eps →
          ∀ e ∈ eps, ∃ s, e = Json.str s) →
      ∃ pods, getCandidatePodsForScheduling requestMetadata podList = .ok pods)
    ∧ getCandidatePodsForScheduling w9Metadata [] = .error () := by
  constructor
  · intro md pl hstr
    cases hns : asObj (lookupStr md subsetFilterNamespace) with
    | none =>
      refine ⟨pl, ?_⟩
      unfold getCandidatePodsForScheduling
      rw [hns]
    | some subsetMap =>
      have hred : getCandidatePodsForScheduling md pl =
          getCandidatePodsSubset subsetMap pl := by
        unfold getCandidatePodsForScheduling
        rw [hns]
      rw [hred]
      cases hk : asArr (lookupStr subsetMap subsetFilterKey) with
      | none =>
        refine ⟨pl, ?_⟩
        unfold getCandidatePodsSubset
        rw [hk]
      | some eps =>
        have hred2 : getCandidatePodsSubset subsetMap pl =
            subsetFilteredPods eps pl := by
          unfold getCandidatePodsSubset
          rw [hk]
        rw [hred2]
        unfold subsetFilteredPods
        by_cases hlen : eps.length = 0
        · rw [if_pos hlen]
          exact ⟨[], rfl⟩
        · rw [if_neg hlen]
          obtain ⟨out, hout⟩ :=
            foldEndpoints_ok eps [] (hstr subsetMap hns eps hk)
          exact ⟨pl.filter (fun pod => decide (pod.address ∈ out)),
            by rw [hout]; rfl⟩
  · rfl

/-- Witness for C9: with no subset filter in the metadata, selection
returns the full pod list. -/
theorem getCandidatePods_total_unless_nonstring_w :
    getCandidatePodsForScheduling [] [wPod] = .ok [wPod] := by
  obtain ⟨pods, hp⟩ := getCandidatePods_total_unless_nonstring.1 [] [wPod]
    (fun sm h => by simp [asObj, lookupStr] at h)
  have hv : getCandidatePodsForScheduling ([] : List (String × Json)) [wPod] =
      .ok [wPod] := rfl
  exact hv

theorem validate_messages_empty (messages : List Message)
    (h : messages = []) :
    validateChatCompletionsMessages messages =
      some ⟨.badRequest, "chat-completions request must have at least one message"⟩ := by
  subst h
  rfl

theorem validate_messages_nonempty (messages : List Message)
    (h : messages ≠ []) :
    validateChatCompletionsMessages messages = none := by
  unfold validateChatCompletionsMessages
  rw [if_neg (by simpa [List.length_eq_zero] using h)]

theorem extractChatData_parse_error (body : List (String × Json))
    (h : parseChatCompletions body = .error ()) :
    extractChatData body = .error ⟨.badRequest, "invalid request format"⟩ := by
  unfold extractChatData
  rw [h]

theorem extractChatData_parse_ok (body : List (String × Json))
    (cc : ChatCompletionsRequest) (h : parseChatCompletions body = .ok cc) :
    extractChatData body =
      (match validateChatCompletionsMessages cc.messages with
        | some e =>
          .error ⟨.badRequest, "invalid chat-completions request: " ++ e.msg⟩
        | none => .ok ⟨none, some cc⟩) := by
  unfold extractChatData
  rw [h]

theorem extract_chatPath (body : List (String × Json))
    (hrej : completionsRejected body) :
    ExtractRequestData body = extractChatData body := by
  cases hpc : parseCompletions body with
  | error e =>
    unfold ExtractRequestData
    rw [hpc]
  | ok c =>
    have hred : ExtractRequestData body =
        (if c.prompt ≠ "" then .ok ⟨some c, none⟩ else extractChatData body) := by
      unfold ExtractRequestData
      rw [hpc]
    rw [hred]
    rcases hrej with h | ⟨c', hc', hp⟩
    · rw [hpc] at h
      exact absurd h (by simp)
    · rw [hpc] at hc'
      have hcc : c = c' := Except.ok.inj hc'
      subst hcc
      simp [hp]

theorem extractChatData_ok (body : List (String × Json)) (d : LLMRequestData)
    (h : extractChatData body = .ok d) :
    ∃ cc, d = ⟨none, some cc⟩ ∧ cc.messages ≠ [] := by
  cases hpc : parseChatCompletions body with
  | error e =>
    rw [extractChatData_parse_error body hpc] at h
    exact absurd h (by simp)
  | ok cc =>
    rw [extractChatData_parse_ok body cc hpc] at h
    by_cases hm : cc.messages = []
    · rw [validate_messages_empty cc.messages hm] at h
      exact absurd h (by simp)
    · rw [validate_messages_nonempty cc.messages hm] at h
      exact ⟨cc, (Except.ok.inj h).symm, hm⟩

/-- Claim C6: ExtractRequestData returns the Completions variant alone
when the completions decode succeeds with a non-empty prompt; otherwise
the chat-completions decode is attempted, a decode failure yields
BadRequest invalid request format, empty messages yield the BadRequest
message prefixed with invalid chat-completions request, and on success
the ChatCompletions variant alone is populated with non-empty messages;
every ok result has exactly one variant populated. -/
theorem extractRequestData_spec (body : List (String × Json)) :
    (∀ c, parseCompletions body = .ok c → c.prompt ≠ "" →
      ExtractRequestData body = .ok ⟨some c, none⟩)
    ∧ (completionsRejected body → parseChatCompletions body = .error () →
        ExtractRequestData body = .error ⟨.badRequest, "invalid request format"⟩)
    ∧ (completionsRejected body → ∀ cc, parseChatCompletions body = .ok cc →
        cc.messages = [] →
        ExtractRequestData body = .error ⟨.badRequest,
          "invalid chat-completions request: chat-completions request must have at least one message"⟩)
    ∧ (completionsRejected body → ∀ cc, parseChatCompletions body = .ok cc →
        cc.messages ≠ [] → ExtractRequestData body = .ok ⟨none, some cc⟩)
    ∧ (∀ d, ExtractRequestData body = .ok d →
        (∃ c, d = ⟨some c, none⟩ ∧ c.prompt ≠ "")
        ∨ ∃ cc, d = ⟨none, some cc⟩ ∧ cc.messages ≠ []) := by
  refine ⟨?_, ?_, ?_, ?_, ?_⟩
  · intro c hc hne
    have hred : ExtractRequestData body =
        (if c.prompt ≠ "" then .ok ⟨some c, none⟩ else extractChatData body) := by
      unfold ExtractRequestData
      rw [hc]
    rw [hred, if_pos hne]
  · intro hrej hchat
    rw [extract_chatPath body hrej]
    exact extractChatData_parse_error body hchat
  · intro hrej cc hcc hmsgs
    rw [extract_chatPath body hrej, extractChatData_parse_ok body cc hcc,
      validate_messages_empty cc.messages hmsgs]
    rfl
  · intro hrej cc hcc hmsgs
    rw [extract_chatPath body hrej, extractChatData_parse_ok body cc hcc,
      validate_messages_nonempty cc.messages hmsgs]
  · intro d hd
    cases hpc : parseCompletions body with
    | error e =>
      rw [extract_chatPath body (Or.inl (by rw [hpc]))] at hd
      exact Or.inr (extractChatData_ok body d hd)
    | ok c =>
      have hred : ExtractRequestData body =
          (if c.prompt ≠ "" then .ok ⟨some c, none⟩ else extractChatData body) := by
        unfold ExtractRequestData
        rw [hpc]
      rw [hred] at hd
      by_cases hp : c.prompt ≠ ""
      · rw [if_pos hp] at hd
        exact Or.inl ⟨c, (Except.ok.inj hd).symm, hp⟩
      · rw [if_neg hp] at hd
        exact Or.inr (extractChatData_ok body d hd)

/-- Witness for C6: a body with a non-empty prompt yields the Completions
variant alone. -/
theorem extractRequestData_spec_w :
    ExtractRequestData w6Body = .ok ⟨some ⟨"p"⟩, none⟩ :=
  (extractRequestData_spec w6Body).1 ⟨"p"⟩ (by rfl) (by decide)

theorem handleRequest_model_missing (env : Env) (reqCtx : RequestContext)
    (h : asStr (lookupStr reqCtx.request.body "model") = none) :
    HandleRequest env reqCtx = .ok (reqCtx, some modelNotFoundErr) := by
  unfold HandleRequest
  rw [h]
  rfl

theorem handleRequest_model_some (env : Env) (reqCtx : RequestContext)
    (m : String) (h : asStr (lookupStr reqCtx.request.body "model") = some m) :
    HandleRequest env reqCtx = handleParsed env (withModel reqCtx m) := by
  unfold HandleRequest
  rw [h]

theorem handleParsed_extract_error (env : Env) (ctx1 : RequestContext)
    (e : Err) (h : ExtractRequestData ctx1.request.body = .error e) :
    handleParsed env ctx1 = .ok (ctx1, some (.api ⟨.badRequest,
      "failed to extract request data: " ++ e.msg⟩)) := by
  unfold handleParsed
  rw [h]

theorem handleParsed_extract_ok (env : Env) (ctx1 : RequestContext)
    (d : LLMRequestData) (h : ExtractRequestData ctx1.request.body = .ok d) :
    handleParsed env ctx1 = handleAdmission env (withSchedulingRequest ctx1 d) := by
  unfold handleParsed
  rw [h]

theorem admitRequest_err (p : Int) (s : Bool) :
    ∀ e, (admitRequest p s).1 = some e → e = saturatedErr := by
  intro e h
  unfold admitRequest at h
  by_cases hp : 0 ≤ p
  · rw [if_pos hp] at h
    exact absurd h (by simp)
  · rw [if_neg hp] at h
    cases s with
    | false => exact absurd h (by simp)
    | true =>
      simp only [if_pos] at h
      exact (Option.some.inj h).symm

theorem handleAdmission_sat (env : Env) (ctx2 : RequestContext)
    (hneg : resolvedPriority env < 0) (hsat : env.isSaturated = true) :
    handleAdmission env ctx2 = .ok (ctx2, some (.api saturatedErr)) := by
  unfold handleAdmission admitRequest
  rw [if_neg (not_le.mpr hneg), hsat]
  rfl

theorem handleAdmission_pass (env : Env) (ctx2 : RequestContext)
    (h : (admitRequest (resolvedPriority env) env.isSaturated).1 = none) :
    handleAdmission env ctx2 = handleScheduling env ctx2 := by
  unfold handleAdmission
  rw [h]

theorem admitRequest_nonneg (p : Int) (s : Bool) (hp : 0 ≤ p) :
    admitRequest p s = (none, false) := by
  unfold admitRequest
  rw [if_pos hp]

theorem admitRequest_unsat (p : Int) (s : Bool) (hp : ¬ 0 ≤ p)
    (hs : s = false) : admitRequest p s = (none, true) := by
  unfold admitRequest
  rw [if_neg hp, hs]
  rfl

theorem handleScheduling_err (env : Env) (ctx2 : RequestContext) :
    ∀ ctx e, handleScheduling env ctx2 = .ok (ctx, some e) → schedResultErr e := by
  intro ctx e h
  unfold handleScheduling at h
  cases hc : getCandidatePodsForScheduling ctx2.request.metadata env.podList with
  | error u =>
    rw [hc] at h
    exact absurd h (by simp)
  | ok candidatePods =>
    simp only [hc] at h
    by_cases hlen : candidatePods.length = 0
    · rw [if_pos hlen] at h
      simp only [Except.ok.injEq, Prod.mk.injEq, Option.some.injEq] at h
      exact Or.inl h.2.symm
    · rw [if_neg hlen] at h
      cases hs : env.scheduleResult with
      | error cause =>
        simp only [hs] at h
        simp only [Except.ok.injEq, Prod.mk.injEq, Option.some.injEq] at h
        exact Or.inr (Or.inl ⟨cause, h.2.symm⟩)
      | ok result =>
        simp only [hs] at h
        unfold prepareRequest at h
        by_cases hpr : result.profileResults.length = 0
        · rw [if_pos hpr] at h
          simp only [Except.ok.injEq, Prod.mk.injEq, Option.some.injEq] at h
          exact Or.inr (Or.inr (Or.inl h.2.symm))
        · rw [if_neg hpr] at h
          cases hp : env.poolResult with
          | error msg =>
            simp only [hp] at h
            simp only [Except.ok.injEq, Prod.mk.injEq, Option.some.injEq] at h
            exact Or.inr (Or.inr (Or.inr (Or.inl ⟨msg, h.2.symm⟩)))
          | ok pool =>
            simp only [hp] at h
            unfold preparePorts at h
            by_cases hport : pool.targetPorts.length ≠ 1
            · rw [if_pos hport] at h
              simp only [Except.ok.injEq, Prod.mk.injEq, Option.some.injEq] at h
              exact Or.inr (Or.inr (Or.inr (Or.inr h.2.symm)))
            · rw [if_neg hport] at h
              cases hpp : profilePods result with
              | nil =>
                rw [hpp] at h
                exact absurd h (by simp)
              | cons p0 rest =>
                simp only [hpp] at h
                simp only [Except.ok.injEq, Prod.mk.injEq] at h
                exact absurd h.2 (by simp)

theorem handleParsed_not_model_error (env : Env) (ctx1 : RequestContext) :
    ∀ ctx, handleParsed env ctx1 = .ok (ctx, some modelNotFoundErr) → False := by
  intro ctx h
  cases he : ExtractRequestData ctx1.request.body with
  | error e =>
    rw [handleParsed_extract_error env ctx1 e he] at h
    simp only [Except.ok.injEq, Prod.mk.injEq, Option.some.injEq] at h
    have hmsg := h.2
    simp only [modelNotFoundErr, HandlerErr.api.injEq, Err.mk.injEq] at hmsg
    exact string_append_ne "failed to extract request data: " e.msg
      "model not found in request body" (by decide) (by decide) hmsg.2
  | ok d =>
    rw [handleParsed_extract_ok env ctx1 d he] at h
    unfold handleAdmission at h
    cases ha : (admitRequest (resolvedPriority env) env.isSaturated).1 with
    | some e =>
      simp only [ha] at h
      have hsat := admitRequest_err (resolvedPriority env) env.isSaturated e ha
      subst hsat
      simp only [Except.ok.injEq, Prod.mk.injEq, Option.some.injEq] at h
      exact absurd h.2 (by decide)
    | none =>
      simp only [ha] at h
      have hchar := handleScheduling_err env (withSchedulingRequest ctx1 d)
        ctx modelNotFoundErr h
      rcases hchar with h1 | ⟨c, h2⟩ | h3 | ⟨msg, h4⟩ | h5
      · exact absurd h1 (by decide)
      · simp only [modelNotFoundErr, HandlerErr.api.injEq, Err.mk.injEq] at h2
        exact absurd h2.1 (by decide)
      · exact absurd h3 (by decide)
      · exact HandlerErr.noConfusion h4
      · exact absurd h5 (by decide)

/-- Claim C2 counterexample: a request whose model field is the empty
string is not rejected with the model-not-found error; it passes the
model check (the Go string type assertion accepts the empty string) and
proceeds to candidate selection, here failing with ServiceUnavailable
since there are no pods. -/
theorem handleRequest_empty_model_accepted :
    lookupStr cex2Ctx.request.body "model" = some (Json.str "")
    ∧ (HandleRequest cex2Env cex2Ctx).toOption.map Prod.snd =
        some (some (.api ⟨.serviceUnavailable,
          "failed to find candidate pods for serving the request"⟩)) :=
  ⟨rfl, rfl⟩

/-- Claim C2 (amended): HandleRequest returns BadRequest model-not-found
if and only if the model field of the body is absent or not a string at
all; a present string passes the check even when empty. -/
theorem handleRequest_model_error_iff (env : Env) (reqCtx : RequestContext) :
    HandleRequest env reqCtx = .ok (reqCtx, some modelNotFoundErr) ↔
      asStr (lookupStr reqCtx.request.body "model") = none := by
  constructor
  · intro h
    cases hm : asStr (lookupStr reqCtx.request.body "model") with
    | none => rfl
    | some m =>
      exfalso
      rw [handleRequest_model_some env reqCtx m hm] at h
      exact handleParsed_not_model_error env (withModel reqCtx m) reqCtx h
  · intro h
    exact handleRequest_model_missing env reqCtx h

/-- Claim C7: a request with non-negative resolved priority is admitted
without consulting the saturation detector (the consultation flag of the
admitRequest embedding is false); for negative priority the detector is
consulted and, once the request reaches admission (model present and
extraction successful), HandleRequest returns the saturation error, with
the request context beside it, exactly when the detector reports
saturated. -/
theorem admission_spec (env : Env) (reqCtx : RequestContext) (m : String)
    (d : LLMRequestData) :
    (0 ≤ resolvedPriority env →
      admitRequest (resolvedPriority env) env.isSaturated = (none, false))
    ∧ (resolvedPriority env < 0 →
        (admitRequest (resolvedPriority env) env.isSaturated).1 =
          (if env.isSaturated then some saturatedErr else none))
    ∧ (asStr (lookupStr reqCtx.request.body "model") = some m →
        ExtractRequestData (withModel reqCtx m).request.body = .ok d →
        resolvedPriority env < 0 →
        (HandleRequest env reqCtx =
            .ok (withSchedulingRequest (withModel reqCtx m) d,
              some (.api saturatedErr))
          ↔ env.isSaturated = true)) := by
  refine ⟨?_, ?_, ?_⟩
  · intro hp
    exact admitRequest_nonneg _ _ hp
  · intro hneg
    unfold admitRequest
    rw [if_neg (not_le.mpr hneg)]
    cases env.isSaturated <;> rfl
  · intro hm he hneg
    constructor
    · intro h
      by_contra hns
      have hsf : env.isSaturated = false := by
        cases hb : env.isSaturated
        · rfl
        · exact absurd hb hns
      rw [handleRequest_model_some env reqCtx m hm,
        handleParsed_extract_ok env _ d he,
        handleAdmission_pass env _
          (by rw [admitRequest_unsat _ _ (not_le.mpr hneg) hsf])] at h
      have hchar := handleScheduling_err env
        (withSchedulingRequest (withModel reqCtx m) d) _ _ h
      rcases hchar with h1 | ⟨c, h2⟩ | h3 | ⟨msg, h4⟩ | h5
      · exact absurd h1 (by decide)
      · simp only [HandlerErr.api.injEq] at h2
        have hmsg : saturatedErr.msg = "failed to find target pod: " ++ c := by
          rw [h2]
        exact string_append_ne "failed to find target pod: " c
          "system saturated, sheddable request dropped" (by decide) (by decide)
          hmsg.symm
      · exact absurd h3 (by decide)
      · exact HandlerErr.noConfusion h4
      · exact absurd h5 (by decide)
    · intro hsat
      rw [handleRequest_model_some env reqCtx m hm,
        handleParsed_extract_ok env _ d he,
        handleAdmission_sat env _ hneg hsat]

/-- Witness for C7: priority -1 with a saturated detector yields the
saturation error beside the assembled request context. -/
theorem admission_spec_w :
    HandleRequest w7Env w7Ctx =
      .ok (withSchedulingRequest (withModel w7Ctx "m") w7Data,
        some (.api saturatedErr)) :=
  ((admission_spec w7Env w7Ctx "m" w7Data).2.2 (by rfl) (by rfl)
    (by decide)).mpr (by rfl)

end Gateway
